import Mathlib

/-!
Verification of the framework-agnostic web layer of the todo-api repository:
the error-to-status mapper chain, the response/error model, JSON encoding
helpers, and the gin-adapter interceptor chain.  Go code is shallowly
embedded: errors become a tree datatype mirroring the `Unwrap` structure,
`http.Header` becomes an association list from keys to value lists, and the
per-request interceptor chain becomes a structurally recursive state-passing
function over an explicit sink/capture context.
-/

namespace TodoWeb

/-! ### Go error values

A Go `error` is modelled by its concrete runtime type name, an identity token
(standing for pointer/value identity used by `errors.Is`), its `Error()`
message, and the list of errors exposed by `Unwrap` (either the single-error
or the `[]error` form). -/

inductive GoErr where
  | mk (ty : String) (id : Nat) (msg : String) (wrapped : List GoErr)

def GoErr.ty : GoErr → String
  | .mk t _ _ _ => t

def GoErr.errId : GoErr → Nat
  | .mk _ i _ _ => i

def GoErr.errMsg : GoErr → String
  | .mk _ _ m _ => m

def GoErr.wrapped : GoErr → List GoErr
  | .mk _ _ _ w => w

instance : Inhabited GoErr := ⟨.mk "" 0 "" []⟩

mutual
/-- The unwrap chain of an error: the error itself followed by the chains of
everything it wraps, as traversed by `errors.Is` / `errors.As`. -/
def chainList : GoErr → List GoErr
  | .mk t i m ws => .mk t i m ws :: chainListL ws

/-- Unwrap chains of a list of wrapped errors, concatenated. -/
def chainListL : List GoErr → List GoErr
  | [] => []
  | e :: es => chainList e ++ chainListL es
end

mutual
/-- Model of `errors.As(err, target)` where `target` has concrete type `ty`:
true when some error in the unwrap chain has concrete type `ty`. -/
def errorsAs (ty : String) : GoErr → Bool
  | .mk t _ _ ws => t == ty || errorsAsL ty ws

def errorsAsL (ty : String) : List GoErr → Bool
  | [] => false
  | e :: es => errorsAs ty e || errorsAsL ty es
end

/-- Model of `errors.Is(err, v)`: true when some error in the unwrap chain is
the same value as `v` (same concrete type and identity). -/
def errorsIs (v : GoErr) (err : GoErr) : Bool :=
  (chainList err).any fun x => x.ty == v.ty && x.errId == v.errId

/-! ### ErrorHandler and its mappers (web package) -/

/-- `ErrorHandlerMapper`: maps an error to `(status, consumed)`. -/
abbrev ErrorHandlerMapper := GoErr → Int × Bool

structure ErrorHandler where
  mappers : List ErrorHandlerMapper

/-- `NewErrorHandler`: stores the mappers in the given order. -/
def NewErrorHandler (ms : List ErrorHandlerMapper) : ErrorHandler :=
  ⟨ms⟩

/-- `NewErrorHandlerTypeMapper`: matches via `errors.As` against a freshly
built target of the exemplar's concrete runtime type. -/
def NewErrorHandlerTypeMapper (v : GoErr) (sc : Int) : ErrorHandlerMapper :=
  fun err => if errorsAs v.ty err then (sc, true) else (0, false)

/-- `NewErrorHandlerValueMapper`: matches via `errors.Is` against the sentinel. -/
def NewErrorHandlerValueMapper (v : GoErr) (sc : Int) : ErrorHandlerMapper :=
  fun err => if errorsIs v err then (sc, true) else (0, false)

/-- `HandleStatusWithDefault`: start from the default, let every matching
mapper overwrite the running status. -/
def ErrorHandler.handleStatusWithDefault (h : ErrorHandler) (err : GoErr) (d : Int) : Int :=
  h.mappers.foldl
    (fun status m =>
      let r := m err
      if r.2 then r.1 else status)
    d

/-- `HandleStatus`: `HandleStatusWithDefault` with `http.StatusInternalServerError`. -/
def ErrorHandler.handleStatus (h : ErrorHandler) (err : GoErr) : Int :=
  h.handleStatusWithDefault err 500

/-! ### ResponseError (web/error.go) -/

structure ResponseError where
  status : Int
  causes : List GoErr

/-- `NewResponseError`: stores the status and the (possibly empty) causes. -/
def NewResponseError (status : Int) (causes : List GoErr) : ResponseError :=
  ⟨status, causes⟩

/-- `Handle`: status from the mapper chain with default 500, one cause. -/
def ErrorHandler.handle (h : ErrorHandler) (err : GoErr) : ResponseError :=
  NewResponseError (h.handleStatus err) [err]

/-- `HandleWithDefault`: like `Handle` with a caller-supplied default. -/
def ErrorHandler.handleWithDefault (h : ErrorHandler) (err : GoErr) (d : Int) : ResponseError :=
  NewResponseError (h.handleStatusWithDefault err d) [err]

/-- Model of `http.StatusText` for the status codes this service uses;
unknown codes give the empty string as in net/http. -/
def statusText : Int → String
  | 200 => "OK"
  | 201 => "Created"
  | 204 => "No Content"
  | 400 => "Bad Request"
  | 401 => "Unauthorized"
  | 403 => "Forbidden"
  | 404 => "Not Found"
  | 409 => "Conflict"
  | 422 => "Unprocessable Entity"
  | 500 => "Internal Server Error"
  | 502 => "Bad Gateway"
  | 503 => "Service Unavailable"
  | _ => ""

/-- `ResponseError.Error()`: status text, then the causes joined with
`", "` and a final `" and "`, following the source's `switch count`. -/
def ResponseError.errorString (e : ResponseError) : String :=
  match e.causes with
  | [] => statusText e.status
  | [c] => statusText e.status ++ ": " ++ c.errMsg
  | cs =>
      let es := cs.take (cs.length - 1)
      let s := String.intercalate ", " (es.map GoErr.errMsg)
      statusText e.status ++ ": " ++ s ++ " and " ++ (cs.getLastD default).errMsg

/-! ### JSON encoding (encoding/json as used by the web package) -/

def hexDigitChar (n : Nat) : Char :=
  if n < 10 then Char.ofNat (48 + n) else Char.ofNat (87 + n)

/-- Escaping of one character by Go's `encoding/json` string encoder
(HTML escaping enabled, as in `json.Marshal`). -/
def goJSONQuoteChar (c : Char) : String :=
  if c = '"' then "\\\""
  else if c = '\\' then "\\\\"
  else if c = '\n' then "\\n"
  else if c = '\r' then "\\r"
  else if c = '\t' then "\\t"
  else if c = '<' then "\\u003c"
  else if c = '>' then "\\u003e"
  else if c = '&' then "\\u0026"
  else if c.toNat < 32 then
    "\\u00" ++ String.singleton (hexDigitChar (c.toNat / 16))
      ++ String.singleton (hexDigitChar (c.toNat % 16))
  else if c.toNat = 0x2028 then "\\u2028"
  else if c.toNat = 0x2029 then "\\u2029"
  else String.singleton c

/-- Go `encoding/json` rendering of a string literal. -/
def goJSONQuote (s : String) : String :=
  "\"" ++ String.join (s.data.map goJSONQuoteChar) ++ "\""

/-- `strings.Join`: concatenation with a separator between elements. -/
def joinSep (sep : String) : List String → String
  | [] => ""
  | [x] => x
  | x :: xs => x ++ sep ++ joinSep sep xs

/-- Compact JSON values, used to state what serialized output looks like. -/
inductive Json where
  | num (n : Int)
  | str (s : String)
  | arr (xs : List Json)
  | obj (fields : List (String × Json))

mutual
/-- Compact rendering of a JSON value, with Go's string escaping. -/
def Json.render : Json → String
  | .num n => toString n
  | .str s => goJSONQuote s
  | .arr xs => "[" ++ joinSep "," (Json.renderL xs) ++ "]"
  | .obj fs => "\x7b" ++ joinSep "," (Json.renderF fs) ++ "\x7d"

def Json.renderL : List Json → List String
  | [] => []
  | x :: xs => Json.render x :: Json.renderL xs

def Json.renderF : List (String × Json) → List String
  | [] => []
  | f :: fs => (goJSONQuote f.1 ++ ":" ++ Json.render f.2) :: Json.renderF fs
end

/-- `json.Marshal` of a `restErrorJSON` value: fields `status`, `error`,
`message` in declaration order, `causes` carrying `,omitempty`. -/
def marshalRestErrorJSON (sc : Int) (causes : List String) : String :=
  "\x7b\"status\":" ++ toString sc
    ++ ",\"error\":" ++ goJSONQuote (statusText sc)
    ++ ",\"message\":" ++ goJSONQuote (statusText sc)
    ++ (if causes.isEmpty then ""
        else ",\"causes\":[" ++ joinSep "," (causes.map goJSONQuote) ++ "]")
    ++ "\x7d"

/-- `ResponseError.MarshalJSON`: build the cause strings via `Error()` and
marshal the `restErrorJSON` struct. -/
def ResponseError.marshalJSON (e : ResponseError) : String :=
  marshalRestErrorJSON e.status (e.causes.map GoErr.errMsg)

/-! ### http.Header and the Response value (web package) -/

/-- `http.Header`: a map from (canonical) keys to lists of values, embedded
as an association list with unique keys. -/
abbrev Header := List (String × List String)

/-- `Header.Values`: all values under a key, `[]` when absent. -/
def Header.values (h : Header) (k : String) : List String :=
  (h.lookup k).getD []

/-- `Header.Del`: remove a key. -/
def Header.del (h : Header) (k : String) : Header :=
  h.filter fun p => p.1 != k

/-- `Header.Add`: append one value under a key. -/
def Header.add (h : Header) (k v : String) : Header :=
  if (h.lookup k).isSome then
    h.map fun p => if p.1 == k then (p.1, p.2 ++ [v]) else p
  else h ++ [(k, [v])]

/-- `Header.Set`: replace all values under a key by a single value. -/
def Header.set (h : Header) (k v : String) : Header :=
  Header.add (Header.del h k) k v

/-- `Header.Get`: first value under a key, `""` when absent. -/
def Header.get (h : Header) (k : String) : String :=
  (Header.values h k).headD ""

/-- `web.Response`: body bytes (nullable), status, headers. -/
structure Response where
  body : Option String
  status : Int
  headers : Header
deriving Repr, DecidableEq

/-- `NewResponseWithHeader`. -/
def NewResponseWithHeader (sc : Int) (b : Option String) (h : Header) : Response :=
  ⟨b, sc, h⟩

/-- `NewResponse`: empty headers. -/
def NewResponse (sc : Int) (b : Option String) : Response :=
  NewResponseWithHeader sc b []

/-- `stringsEqual` from the gin adapter / response file: equal lengths and
every element of `a` occurs somewhere in `b` (a set-membership check). -/
def stringsEqual (a b : List String) : Bool :=
  if a.length != b.length then false
  else a.all fun x => b.contains x

/-- `bytes.Equal`: nil and empty byte slices compare equal. -/
def bytesEqual (a b : Option String) : Bool :=
  a.getD "" == b.getD ""

/-- `Response.Equal`: status, body bytes, then per-key comparison of the
header maps via `stringsEqual`. -/
def Response.equal (r v : Response) : Bool :=
  if r.status != v.status then false
  else if !bytesEqual r.body v.body then false
  else if r.headers.length != v.headers.length then false
  else r.headers.all fun p =>
    match v.headers.lookup p.1 with
    | some vv => stringsEqual p.2 vv
    | none => false

/-! ### NewJSONResponse (web package JSON helpers) -/

/-- An arbitrary Go value handed to `json.Marshal`, abstracted to its type
name (`%T`), its `%+v` rendering, and whether/how it marshals. -/
inductive GoValue where
  | jsonOk (ty : String) (rep : String) (json : String)
  | jsonBad (ty : String) (rep : String) (errMsg : String)

/-- The `any`-typed body argument of `NewJSONResponse`. -/
inductive GoAny where
  | nil
  | str (s : String)
  | bytes (b : Option String)
  | other (v : GoValue)

/-- `%T` of the body argument. -/
def GoAny.typeName : GoAny → String
  | .nil => "<nil>"
  | .str _ => "string"
  | .bytes _ => "[]uint8"
  | .other (.jsonOk t _ _) => t
  | .other (.jsonBad t _ _) => t

/-- `%+v` of the body argument. -/
def GoAny.repString : GoAny → String
  | .nil => "<nil>"
  | .str s => s
  | .bytes none => "[]"
  | .bytes (some bs) => bs
  | .other (.jsonOk _ r _) => r
  | .other (.jsonBad _ r _) => r

def base64Alphabet : String :=
  "ABCDEFGHIJKLMNOPQRSTUVWXYZabcdefghijklmnopqrstuvwxyz0123456789+/"

def base64Char (n : Nat) : Char :=
  base64Alphabet.data.getD n 'A'

/-- Standard base64 with padding over byte values. -/
def goBase64Bytes : List Nat → String
  | [] => ""
  | [a] =>
      String.mk [base64Char (a / 4), base64Char (a % 4 * 16)] ++ "=="
  | [a, b] =>
      String.mk [base64Char (a / 4), base64Char (a % 4 * 16 + b / 16),
        base64Char (b % 16 * 4)] ++ "="
  | a :: b :: c :: rest =>
      String.mk [base64Char (a / 4), base64Char (a % 4 * 16 + b / 16),
        base64Char (b % 16 * 4 + c / 64), base64Char (c % 64)] ++ goBase64Bytes rest

def goBase64 (s : String) : String :=
  goBase64Bytes (s.data.map Char.toNat)

/-- `json.Marshal` on the body argument: nil interfaces and nil byte slices
marshal to `null`, strings to quoted strings, non-nil byte slices to base64,
other values as recorded in the `GoValue`. -/
def goMarshal : GoAny → Except String String
  | .nil => .ok "null"
  | .str s => .ok (goJSONQuote s)
  | .bytes none => .ok "null"
  | .bytes (some bs) => .ok (goJSONQuote (goBase64 bs))
  | .other (.jsonOk _ _ j) => .ok j
  | .other (.jsonBad _ _ m) => .error m

/-- The `templateInternalParsingErr` raw string with `%T`, `%+v`, `%s`
substituted by `fmt.Sprintf`. -/
def templateInternalParsingErrApplied (tyName rep errMsg : String) : String :=
  "\x7b\n\t\"status\": 500,\n\t\"error\": \"Internal Server Error\",\n\t\"message\": \"Internal Server Error\",\n\t\"causes\": [\n\t\t\"unable to parse "
    ++ tyName ++ " into json " ++ rep ++ ": " ++ errMsg ++ "\"\n\t]\n\x7d"

/-- `NewJSONResponse`: JSON content type; nil gives an empty body; strings
and byte slices skip serialization; everything else is marshaled, a failure
producing the fixed 500 template. -/
def NewJSONResponse (sc : Int) (b : GoAny) : Response :=
  let h : Header := [("Content-Type", ["application/json"])]
  match b with
  | .nil => NewResponseWithHeader sc none h
  | _ =>
    let bs : Option String :=
      match b with
      | .str v => some v
      | .bytes v => v
      | _ => none
    match bs with
    | some s => NewResponseWithHeader sc (some s) h
    | none =>
        match goMarshal b with
        | .ok jb => NewResponseWithHeader sc (some jb) h
        | .error e =>
            NewResponseWithHeader 500
              (some (templateInternalParsingErrApplied b.typeName b.repString e)) h

/-- `NewJSONResponseFromError` for a `ResponseError`: marshal it (which
cannot fail) and hand the bytes to `NewJSONResponse` under its status. -/
def NewJSONResponseFromError (re : ResponseError) : Response :=
  NewJSONResponse re.status (GoAny.bytes (some re.marshalJSON))

/-! ### The gin-adapter interceptor chain (web/gin adapter)

One request's execution state: the native output sink (status, body bytes,
headers), the shared capture buffer installed by the first interceptor
wrapper, gin's abort flag, a count of terminal-handler invocations, and the
errors reported through `noticeError`. -/

structure Ctx where
  sinkStatus : Int
  sinkBody : String
  sinkHeaders : Header
  capture : Option String
  aborted : Bool
  handlerCalls : Nat
  faults : List String
deriving Repr, DecidableEq

/-- The state at the start of an exchange (gin's writer defaults to 200). -/
def initCtx : Ctx :=
  ⟨200, "", [], none, false, 0, []⟩

/-- What an interceptor does when invoked: return a response without calling
`Next()`, call `Next()` once and post-process the captured response, or
panic during its own execution. -/
inductive ItcBehavior where
  | shortCircuit (resp : Response)
  | passThrough (post : Response → Response)
  | fault (msg : String)

/-- What a terminal handler does: return a response or panic. -/
inductive Hdl where
  | ok (resp : Response)
  | fault (msg : String)

/-- One registered link of the gin chain: `NewInterceptor fn` or
`NewHandlerJSON fn`. -/
inductive Link where
  | interceptor (b : ItcBehavior)
  | handlerJSON (h : Hdl)

/-- First wrapper installs the capturing writer; later ones reuse it. -/
def installCapture (ctx : Ctx) : Ctx :=
  match ctx.capture with
  | some _ => ctx
  | none => { ctx with capture := some "" }

/-- A write through the (possibly wrapped) response writer: bytes go to the
sink and are mirrored into the capture buffer when installed. -/
def writeBody (ctx : Ctx) (s : String) : Ctx :=
  { ctx with
      sinkBody := ctx.sinkBody ++ s
      capture := ctx.capture.map fun c => c ++ s }

/-- `noticeError`: record a reported fault. -/
def notice (ctx : Ctx) (m : String) : Ctx :=
  { ctx with faults := ctx.faults ++ [m] }

/-- The header loop at the end of `NewInterceptor`: for every key of the
interceptor's response whose value set differs (per `stringsEqual`) from the
live output's, delete the key and re-add the response's values. -/
def reconcileHeaders (ctx : Ctx) (respHeaders : Header) : Ctx :=
  { ctx with
      sinkHeaders :=
        respHeaders.foldl
          (fun hs p =>
            if stringsEqual p.2 (Header.values hs p.1) then hs
            else p.2.foldl (fun h v => Header.add h p.1 v) (Header.del hs p.1))
          ctx.sinkHeaders }

/-- `interceptedResponse.Response()`: materialize status, captured body and
live headers as a `Response`. -/
def capturedResponse (ctx : Ctx) : Response :=
  ⟨some (ctx.capture.getD ""), ctx.sinkStatus, ctx.sinkHeaders⟩

/-- The header half of the gin-adapter `render` step: for each key of the
response, delete it from the live output and re-add the response's values. -/
def renderApplyHeaders (ctx : Ctx) (respHeaders : Header) : Ctx :=
  { ctx with
      sinkHeaders :=
        respHeaders.foldl
          (fun hs p => p.2.foldl (fun h v => Header.add h p.1 v) (Header.del hs p.1))
          ctx.sinkHeaders }

/-- `renderer.WriteContentType`: set the Content-Type header on the live
output when the response specifies one. -/
def writeContentType (ctx : Ctx) (respHeaders : Header) : Ctx :=
  if Header.get respHeaders "Content-Type" != "" then
    { ctx with
        sinkHeaders :=
          Header.set ctx.sinkHeaders "Content-Type" (Header.get respHeaders "Content-Type") }
  else ctx

/-- The gin-adapter `render` step: set the status, replace the response's
header keys on the live output, and when a body is present write the
content type and the body through the writer. -/
def render (ctx : Ctx) (resp : Response) : Ctx :=
  let ctx2 := renderApplyHeaders { ctx with sinkStatus := resp.status } resp.headers
  match resp.body with
  | none => ctx2
  | some b => writeBody (writeContentType ctx2 resp.headers) b

/-- `NewHandlerJSON fn` run under gin: invoke the handler and render its
response; a panic is caught by `recoverHandlerResp`, which renders the
JSON serialization of a 500 `ResponseError` wrapping the panic value. -/
def runHandlerJSON (h : Hdl) (ctx : Ctx) : Ctx :=
  match h with
  | .ok resp => render { ctx with handlerCalls := ctx.handlerCalls + 1 } resp
  | .fault msg =>
      let ctx1 := { ctx with handlerCalls := ctx.handlerCalls + 1 }
      render ctx1 (NewJSONResponseFromError (NewResponseError 500 [.mk "*errors.errorString" 0 msg []]))

/-- The `!ireq.nextCalled` branch of `NewInterceptor` followed by its header
loop: write status and (non-empty) body through the wrapped writer, abort
gin's chain, and reconcile the returned headers. -/
def shortCircuitStep (resp : Response) (ctx : Ctx) : Ctx :=
  let ctx1 := installCapture ctx
  let ctx2 := { ctx1 with sinkStatus := resp.status }
  let ctx3 :=
    if (resp.body.getD "").length > 0 then writeBody ctx2 (resp.body.getD "")
    else ctx2
  reconcileHeaders { ctx3 with aborted := true } resp.headers

/-- Running gin's handler chain from the current position: each link runs
unless the chain was aborted.  An interceptor wrapper installs the capture,
runs the interceptor, and either (a) on panic is unwound to
`recoverInterceptorResp`, which reports the fault and lets the loop continue
with the next link, (b) on a short-circuit (no `Next()`) performs
`shortCircuitStep`, so the loop stops at the abort, or (c) on a pass-through
runs the rest of the chain inside `Next()`, then reconciles the headers of
the interceptor's returned response. -/
def ginNext : List Link → Ctx → Ctx
  | [], ctx => ctx
  | l :: rest, ctx =>
    if ctx.aborted then ctx
    else
      match l with
      | .handlerJSON h => ginNext rest (runHandlerJSON h ctx)
      | .interceptor (.fault msg) =>
          ginNext rest (notice (installCapture ctx) ("panic recovered: " ++ msg))
      | .interceptor (.shortCircuit resp) => shortCircuitStep resp ctx
      | .interceptor (.passThrough post) =>
          let ctx2 := ginNext rest (installCapture ctx)
          reconcileHeaders ctx2 (post (capturedResponse ctx2)).headers

/-! ## Supporting lemmas -/

/-- Result of `HandleStatusWithDefault` as described by the spec: the status
of the last matching mapper in registration order, or the default. -/
def lastMatchStatus (ms : List ErrorHandlerMapper) (err : GoErr) (d : Int) : Int :=
  match ms.reverse.find? (fun m => (m err).2) with
  | some m => (m err).1
  | none => d

theorem foldl_status_eq_lastMatch (err : GoErr) :
    ∀ (ms : List ErrorHandlerMapper) (d : Int),
      ms.foldl (fun status m => let r := m err; if r.2 then r.1 else status) d
        = lastMatchStatus ms err d := by
  intro ms
  induction ms with
  | nil => intro d; rfl
  | cons m rest ih =>
      intro d
      rw [List.foldl_cons, ih]
      unfold lastMatchStatus
      rw [List.reverse_cons, List.find?_append]
      cases hfind : rest.reverse.find? (fun m => (m err).2) with
      | some m' => simp
      | none =>
          simp only [Option.orElse_none, Option.none_orElse, List.find?_singleton]
          cases hm : (m err).2 <;> simp [hm]

mutual
theorem errorsAs_eq_chain_any (ty : String) : ∀ (e : GoErr),
    errorsAs ty e = (chainList e).any fun x => x.ty == ty
  | .mk t i m ws => by
      rw [errorsAs, chainList, List.any_cons, errorsAsL_eq_chain_any ty ws]
      rfl

theorem errorsAsL_eq_chain_any (ty : String) : ∀ (ws : List GoErr),
    errorsAsL ty ws = (chainListL ws).any fun x => x.ty == ty
  | [] => by rw [errorsAsL, chainListL]; rfl
  | e :: es => by
      rw [errorsAsL, chainListL, List.any_append,
        errorsAs_eq_chain_any ty e, errorsAsL_eq_chain_any ty es]
end

theorem errorsAs_iff_chain_mem (ty : String) (e : GoErr) :
    errorsAs ty e = true ↔ ∃ x ∈ chainList e, x.ty = ty := by
  rw [errorsAs_eq_chain_any, List.any_eq_true]
  simp

/-! ## Claims about the error handler -/

/-- Claim C1: `HandleStatusWithDefault` starts from the default, iterates the
mappers in registration order overwriting the running status at every match,
and therefore returns the status of the last matching mapper in registration
order, or the default when no mapper matches. -/
theorem handleStatusWithDefault_last_match_wins
    (ms : List ErrorHandlerMapper) (err : GoErr) (d : Int) :
    (NewErrorHandler ms).handleStatusWithDefault err d = lastMatchStatus ms err d :=
  foldl_status_eq_lastMatch err ms d

/-- Claim C2: `Handle` builds a `ResponseError` whose status is
`HandleStatusWithDefault(err, 500)` and whose causes are exactly `[err]`. -/
theorem handle_uses_default_500_and_single_cause (h : ErrorHandler) (err : GoErr) :
    (h.handle err).status = h.handleStatusWithDefault err 500
      ∧ (h.handle err).causes = [err] :=
  ⟨rfl, rfl⟩

/-- Claim C3: the type mapper returns `(sc, true)` exactly when the error's
unwrap chain contains an error of the exemplar's concrete runtime type, and
`(0, false)` otherwise (regardless of shared interfaces). -/
theorem typeMapper_matches_exact_concrete_type (v : GoErr) (sc : Int) (err : GoErr) :
    (NewErrorHandlerTypeMapper v sc err = (sc, true) ↔ ∃ x ∈ chainList err, x.ty = v.ty)
    ∧ ((¬ ∃ x ∈ chainList err, x.ty = v.ty) → NewErrorHandlerTypeMapper v sc err = (0, false)) := by
  constructor
  · constructor
    · intro hEq
      by_cases h : errorsAs v.ty err = true
      · exact (errorsAs_iff_chain_mem v.ty err).mp h
      · rw [NewErrorHandlerTypeMapper, if_neg h] at hEq
        simp at hEq
    · intro hex
      rw [NewErrorHandlerTypeMapper, if_pos ((errorsAs_iff_chain_mem v.ty err).mpr hex)]
  · intro hnex
    have h : ¬ errorsAs v.ty err = true := fun hc =>
      hnex ((errorsAs_iff_chain_mem v.ty err).mp hc)
    rw [NewErrorHandlerTypeMapper, if_neg h]

/-- Witness for C3: a mapper built for type `ValidationError` does not match
an error of a different concrete type. -/
theorem typeMapper_matches_exact_concrete_type_witness :
    (¬ ∃ x ∈ chainList (GoErr.mk "OtherError" 1 "boom" []),
        x.ty = (GoErr.mk "ValidationError" 0 "" []).ty)
    ∧ NewErrorHandlerTypeMapper (GoErr.mk "ValidationError" 0 "" []) 400
        (GoErr.mk "OtherError" 1 "boom" []) = (0, false) := by
  refine ⟨by decide, (typeMapper_matches_exact_concrete_type _ 400 _).2 (by decide)⟩

/-- Claim C5: `ResponseError.Error()` is the status text alone for zero
causes, `"<status text>: <cause>"` for one, and for two or more causes the
first n-1 messages joined by `", "` followed by `" and "` and the last. -/
theorem responseError_errorString_formatting :
    (∀ e : ResponseError,
      e.errorString =
        match e.causes with
        | [] => statusText e.status
        | [c] => statusText e.status ++ ": " ++ c.errMsg
        | c1 :: c2 :: cs =>
            statusText e.status ++ ": "
              ++ String.intercalate ", " (((c1 :: c2 :: cs).dropLast).map GoErr.errMsg)
              ++ " and " ++ GoErr.errMsg ((c2 :: cs).getLast (List.cons_ne_nil c2 cs)))
    ∧ (NewResponseError 400
        [GoErr.mk "e" 0 "A" [], GoErr.mk "e" 1 "B" [], GoErr.mk "e" 2 "C" []]).errorString
        = "Bad Request: A, B and C" := by
  constructor
  · intro e
    obtain ⟨st, cs⟩ := e
    match cs with
    | [] => rfl
    | [c] => rfl
    | c1 :: c2 :: cs =>
        show ResponseError.errorString ⟨st, c1 :: c2 :: cs⟩ = _
        rw [ResponseError.errorString]
        have h1 : (c1 :: c2 :: cs).take ((c1 :: c2 :: cs).length - 1)
            = (c1 :: c2 :: cs).dropLast := by
          rw [List.dropLast_eq_take]
        have h2 : (c1 :: c2 :: cs).getLastD default
            = (c2 :: cs).getLast (List.cons_ne_nil c2 cs) := by
          rw [List.getLastD_eq_getLast?, List.getLast?_eq_getLast _ (List.cons_ne_nil c1 _),
            Option.getD_some, List.getLast_cons (List.cons_ne_nil c2 cs)]
        simp only [h1, h2]
  · decide

/-! ## Claims about Response equality -/

theorem stringsEqual_iff (a b : List String) :
    stringsEqual a b = true ↔ a.length = b.length ∧ ∀ x ∈ a, x ∈ b := by
  rw [stringsEqual]
  split
  · next h =>
      have hne : a.length ≠ b.length := by simpa using h
      simp only [Bool.false_eq_true, false_iff]
      intro hc
      exact hne hc.1
  · next h =>
      have hlen : a.length = b.length := by simpa using h
      simp [List.all_eq_true, hlen]

theorem lookup_match_iff (o : Option (List String)) (a : List String) :
    (match o with
      | some vv => stringsEqual a vv
      | none => false) = true
      ↔ ∃ vv, o = some vv ∧ a.length = vv.length ∧ ∀ x ∈ a, x ∈ vv := by
  cases o with
  | none => simp
  | some vv => simp [stringsEqual_iff]

theorem response_equal_iff (r v : Response) :
    Response.equal r v = true ↔
      r.status = v.status
      ∧ r.body.getD "" = v.body.getD ""
      ∧ r.headers.length = v.headers.length
      ∧ ∀ p ∈ r.headers,
          ∃ vv, v.headers.lookup p.1 = some vv ∧ p.2.length = vv.length ∧ ∀ x ∈ p.2, x ∈ vv := by
  rw [Response.equal]
  split
  · next h =>
      have hne : r.status ≠ v.status := by simpa using h
      simp only [Bool.false_eq_true, false_iff]
      intro hc
      exact hne hc.1
  · next h =>
      have hst : r.status = v.status := by simpa using h
      split
      · next h2 =>
          have hne : ¬ bytesEqual r.body v.body = true := by simpa using h2
          simp only [Bool.false_eq_true, false_iff]
          intro hc
          exact hne (by simpa [bytesEqual] using hc.2.1)
      · next h2 =>
          have hb : r.body.getD "" = v.body.getD "" := by
            have hbe : bytesEqual r.body v.body = true := by simpa using h2
            simpa [bytesEqual] using hbe
          split
          · next h3 =>
              have hne : r.headers.length ≠ v.headers.length := by simpa using h3
              simp only [Bool.false_eq_true, false_iff]
              intro hc
              exact hne hc.2.2.1
          · next h3 =>
              have hlen : r.headers.length = v.headers.length := by simpa using h3
              simp only [List.all_eq_true, hst, hb, hlen, true_and]
              constructor
              · intro hall p hp
                exact (lookup_match_iff _ _).mp (hall p hp)
              · intro hall p hp
                exact (lookup_match_iff _ _).mpr (hall p hp)

theorem lookup_self_of_nodup_keys :
    ∀ (h : Header), (h.map Prod.fst).Nodup → ∀ p ∈ h, h.lookup p.1 = some p.2 := by
  intro h
  induction h with
  | nil => intro _ p hp; cases hp
  | cons q t ih =>
      intro hnd p hp
      rw [List.map_cons, List.nodup_cons] at hnd
      rw [List.mem_cons] at hp
      rcases hp with hp | hp
      · subst hp
        simp [List.lookup]
      · have hne : p.1 ≠ q.1 := by
          intro hcontra
          exact hnd.1 (hcontra ▸ List.mem_map_of_mem Prod.fst hp)
        simp only [List.lookup, beq_false_of_ne hne]
        exact ih hnd.2 p hp

theorem forall2_perm_lookup :
    ∀ (rh vh : Header),
      List.Forall₂ (fun p q => p.1 = q.1 ∧ p.2.Perm q.2) rh vh →
      (rh.map Prod.fst).Nodup →
      ∀ p ∈ rh, ∃ vv, vh.lookup p.1 = some vv ∧ p.2.length = vv.length ∧ ∀ x ∈ p.2, x ∈ vv := by
  intro rh vh hf
  induction hf with
  | nil => intro _ p hp; cases hp
  | @cons p q rt vt hrel htail ih =>
      intro hnd p' hp'
      rw [List.map_cons, List.nodup_cons] at hnd
      rw [List.mem_cons] at hp'
      rcases hp' with hp' | hp'
      · subst hp'
        refine ⟨q.2, ?_, hrel.2.length_eq, fun x hx => hrel.2.mem_iff.mp hx⟩
        have hkey : (p'.1 == q.1) = true := by simpa using hrel.1
        simp only [List.lookup, hkey]
      · have hne : p'.1 ≠ q.1 := by
          intro hcontra
          apply hnd.1
          rw [← hrel.1] at hcontra
          exact hcontra ▸ List.mem_map_of_mem Prod.fst hp'
        simp only [List.lookup, beq_false_of_ne hne]
        exact ih hnd.2 p' hp'

/-- Claim C4 counterexample: with a duplicated header value on one side,
`Equal` holds in one direction but not the other, so it is not symmetric and
does not coincide with per-key multi-map equality. -/
theorem response_equal_asymmetric_counterexample :
    Response.equal ⟨some "b", 200, [("K", ["x", "x"])]⟩ ⟨some "b", 200, [("K", ["x", "y"])]⟩ = true
    ∧ Response.equal ⟨some "b", 200, [("K", ["x", "y"])]⟩ ⟨some "b", 200, [("K", ["x", "x"])]⟩ = false := by
  decide

/-- Claim C4 as amended: `Response.Equal` is reflexive (for duplicate-free
header keys) and insensitive to the insertion order of the values under each
key, and `r.Equal v` holds exactly when status and body bytes agree, the
header key counts agree, and each key of `r` is present in `v` with a value
list of the same length containing every value of `r`'s list — a one-sided
containment check, not symmetric multi-map equality. -/
theorem response_equal_characterization (r v : Response) :
    ((r.headers.map Prod.fst).Nodup → Response.equal r r = true)
    ∧ (Response.equal r v = true ↔
        r.status = v.status
        ∧ r.body.getD "" = v.body.getD ""
        ∧ r.headers.length = v.headers.length
        ∧ ∀ p ∈ r.headers,
            ∃ vv, v.headers.lookup p.1 = some vv ∧ p.2.length = vv.length ∧ ∀ x ∈ p.2, x ∈ vv)
    ∧ ((r.headers.map Prod.fst).Nodup →
        r.status = v.status →
        r.body.getD "" = v.body.getD "" →
        List.Forall₂ (fun p q => p.1 = q.1 ∧ p.2.Perm q.2) r.headers v.headers →
        Response.equal r v = true) := by
  refine ⟨?_, response_equal_iff r v, ?_⟩
  · intro hnd
    rw [response_equal_iff]
    refine ⟨rfl, rfl, rfl, fun p hp => ⟨p.2, lookup_self_of_nodup_keys _ hnd p hp, rfl, fun x hx => hx⟩⟩
  · intro hnd hst hb hf
    rw [response_equal_iff]
    exact ⟨hst, hb, hf.length_eq, forall2_perm_lookup r.headers v.headers hf hnd⟩

/-- Witness for the amended C4: reflexivity and order-insensitivity at
concrete responses. -/
theorem response_equal_characterization_witness :
    ((([("K", ["a", "b"])] : Header).map Prod.fst).Nodup
      ∧ Response.equal ⟨some "b", 200, [("K", ["a", "b"])]⟩ ⟨some "b", 200, [("K", ["a", "b"])]⟩ = true)
    ∧ (List.Forall₂ (fun (p q : String × List String) => p.1 = q.1 ∧ p.2.Perm q.2)
        [("K", ["a", "b"])] [("K", ["b", "a"])]
      ∧ Response.equal ⟨some "b", 200, [("K", ["a", "b"])]⟩ ⟨some "b", 200, [("K", ["b", "a"])]⟩ = true) := by
  have hnd : (([("K", ["a", "b"])] : Header).map Prod.fst).Nodup := by decide
  have hf : List.Forall₂ (fun (p q : String × List String) => p.1 = q.1 ∧ p.2.Perm q.2)
      [("K", ["a", "b"])] [("K", ["b", "a"])] := by
    refine List.Forall₂.cons ⟨rfl, ?_⟩ List.Forall₂.nil
    decide
  refine ⟨⟨hnd, (response_equal_characterization _ ⟨some "b", 200, [("K", ["a", "b"])]⟩).1 hnd⟩,
    hf, (response_equal_characterization _ _).2.2 hnd rfl rfl hf⟩

/-! ## Claims about JSON serialization of errors -/

theorem renderL_map_str (xs : List String) :
    Json.renderL (xs.map Json.str) = xs.map goJSONQuote := by
  induction xs with
  | nil => rfl
  | cons x xs ih => rw [List.map_cons, Json.renderL, Json.render, ih, List.map_cons]

/-- The JSON object shape the spec documents for a `ResponseError`. -/
def specRestErrorJSON (e : ResponseError) : Json :=
  Json.obj
    ([("status", Json.num e.status),
      ("error", Json.str (statusText e.status)),
      ("message", Json.str (statusText e.status))]
      ++ if e.causes.isEmpty then []
         else [("causes", Json.arr (e.causes.map (fun c => Json.str c.errMsg)))])

theorem marshalRestErrorJSON_eq_render (sc : Int) (causes : List String) :
    marshalRestErrorJSON sc causes
      = Json.render (Json.obj
          ([("status", Json.num sc),
            ("error", Json.str (statusText sc)),
            ("message", Json.str (statusText sc))]
            ++ if causes.isEmpty then []
               else [("causes", Json.arr (causes.map Json.str))])) := by
  have qs : goJSONQuote "status" = "\"status\"" := rfl
  have qe : goJSONQuote "error" = "\"error\"" := rfl
  have qm : goJSONQuote "message" = "\"message\"" := rfl
  have qc : goJSONQuote "causes" = "\"causes\"" := rfl
  cases causes with
  | nil =>
      apply String.ext
      simp [marshalRestErrorJSON, Json.render, Json.renderF, Json.renderL, joinSep, qs, qe, qm,
        String.data_append, List.append_assoc]
  | cons c cs =>
      apply String.ext
      simp [marshalRestErrorJSON, Json.render, Json.renderF, Json.renderL, joinSep, qs, qe, qm,
        qc, renderL_map_str, String.data_append, List.append_assoc]

/-- Claim C6: `ResponseError.MarshalJSON` yields the documented object:
`status`, then `error` and `message` both equal to the HTTP status text
(never raw error text), then the causes' `Error()` strings in order, with
the `causes` field omitted entirely when there are none. -/
theorem responseError_marshalJSON_shape (e : ResponseError) :
    e.marshalJSON = Json.render (specRestErrorJSON e) := by
  rw [ResponseError.marshalJSON, specRestErrorJSON, marshalRestErrorJSON_eq_render]
  cases e.causes with
  | nil => rfl
  | cons c cs =>
      simp only [List.map_cons, List.isEmpty_cons, List.map_map]
      rfl

/-! ## Claims about the interceptor chain -/

@[simp] theorem installCapture_aborted (ctx : Ctx) :
    (installCapture ctx).aborted = ctx.aborted := by
  unfold installCapture; split <;> rfl

@[simp] theorem installCapture_sinkStatus (ctx : Ctx) :
    (installCapture ctx).sinkStatus = ctx.sinkStatus := by
  unfold installCapture; split <;> rfl

@[simp] theorem installCapture_sinkBody (ctx : Ctx) :
    (installCapture ctx).sinkBody = ctx.sinkBody := by
  unfold installCapture; split <;> rfl

@[simp] theorem installCapture_handlerCalls (ctx : Ctx) :
    (installCapture ctx).handlerCalls = ctx.handlerCalls := by
  unfold installCapture; split <;> rfl

@[simp] theorem installCapture_faults (ctx : Ctx) :
    (installCapture ctx).faults = ctx.faults := by
  unfold installCapture; split <;> rfl

@[simp] theorem writeBody_aborted (ctx : Ctx) (s : String) :
    (writeBody ctx s).aborted = ctx.aborted := rfl

@[simp] theorem writeBody_sinkStatus (ctx : Ctx) (s : String) :
    (writeBody ctx s).sinkStatus = ctx.sinkStatus := rfl

@[simp] theorem writeBody_sinkBody (ctx : Ctx) (s : String) :
    (writeBody ctx s).sinkBody = ctx.sinkBody ++ s := rfl

@[simp] theorem writeBody_handlerCalls (ctx : Ctx) (s : String) :
    (writeBody ctx s).handlerCalls = ctx.handlerCalls := rfl

@[simp] theorem writeBody_faults (ctx : Ctx) (s : String) :
    (writeBody ctx s).faults = ctx.faults := rfl

@[simp] theorem notice_aborted (ctx : Ctx) (m : String) :
    (notice ctx m).aborted = ctx.aborted := rfl

@[simp] theorem notice_sinkStatus (ctx : Ctx) (m : String) :
    (notice ctx m).sinkStatus = ctx.sinkStatus := rfl

@[simp] theorem notice_sinkBody (ctx : Ctx) (m : String) :
    (notice ctx m).sinkBody = ctx.sinkBody := rfl

@[simp] theorem notice_handlerCalls (ctx : Ctx) (m : String) :
    (notice ctx m).handlerCalls = ctx.handlerCalls := rfl

@[simp] theorem notice_faults (ctx : Ctx) (m : String) :
    (notice ctx m).faults = ctx.faults ++ [m] := rfl

@[simp] theorem reconcileHeaders_aborted (ctx : Ctx) (h : Header) :
    (reconcileHeaders ctx h).aborted = ctx.aborted := rfl

@[simp] theorem reconcileHeaders_sinkStatus (ctx : Ctx) (h : Header) :
    (reconcileHeaders ctx h).sinkStatus = ctx.sinkStatus := rfl

@[simp] theorem reconcileHeaders_sinkBody (ctx : Ctx) (h : Header) :
    (reconcileHeaders ctx h).sinkBody = ctx.sinkBody := rfl

@[simp] theorem reconcileHeaders_handlerCalls (ctx : Ctx) (h : Header) :
    (reconcileHeaders ctx h).handlerCalls = ctx.handlerCalls := rfl

@[simp] theorem reconcileHeaders_faults (ctx : Ctx) (h : Header) :
    (reconcileHeaders ctx h).faults = ctx.faults := rfl

@[simp] theorem renderApplyHeaders_aborted (ctx : Ctx) (h : Header) :
    (renderApplyHeaders ctx h).aborted = ctx.aborted := rfl

@[simp] theorem renderApplyHeaders_handlerCalls (ctx : Ctx) (h : Header) :
    (renderApplyHeaders ctx h).handlerCalls = ctx.handlerCalls := rfl

@[simp] theorem renderApplyHeaders_faults (ctx : Ctx) (h : Header) :
    (renderApplyHeaders ctx h).faults = ctx.faults := rfl

@[simp] theorem writeContentType_aborted (ctx : Ctx) (h : Header) :
    (writeContentType ctx h).aborted = ctx.aborted := by
  unfold writeContentType; split <;> rfl

@[simp] theorem writeContentType_handlerCalls (ctx : Ctx) (h : Header) :
    (writeContentType ctx h).handlerCalls = ctx.handlerCalls := by
  unfold writeContentType; split <;> rfl

@[simp] theorem writeContentType_faults (ctx : Ctx) (h : Header) :
    (writeContentType ctx h).faults = ctx.faults := by
  unfold writeContentType; split <;> rfl

@[simp] theorem render_aborted (ctx : Ctx) (resp : Response) :
    (render ctx resp).aborted = ctx.aborted := by
  obtain ⟨b, st, hdr⟩ := resp
  cases b with
  | none => rfl
  | some s => simp [render]

@[simp] theorem render_handlerCalls (ctx : Ctx) (resp : Response) :
    (render ctx resp).handlerCalls = ctx.handlerCalls := by
  obtain ⟨b, st, hdr⟩ := resp
  cases b with
  | none => rfl
  | some s => simp [render]

@[simp] theorem render_faults (ctx : Ctx) (resp : Response) :
    (render ctx resp).faults = ctx.faults := by
  obtain ⟨b, st, hdr⟩ := resp
  cases b with
  | none => rfl
  | some s => simp [render]

@[simp] theorem shortCircuitStep_aborted (resp : Response) (ctx : Ctx) :
    (shortCircuitStep resp ctx).aborted = true := by
  unfold shortCircuitStep; split <;> rfl

@[simp] theorem shortCircuitStep_handlerCalls (resp : Response) (ctx : Ctx) :
    (shortCircuitStep resp ctx).handlerCalls = ctx.handlerCalls := by
  unfold shortCircuitStep; split <;> simp

@[simp] theorem shortCircuitStep_sinkStatus (resp : Response) (ctx : Ctx) :
    (shortCircuitStep resp ctx).sinkStatus = resp.status := by
  unfold shortCircuitStep; split <;> simp

@[simp] theorem shortCircuitStep_faults (resp : Response) (ctx : Ctx) :
    (shortCircuitStep resp ctx).faults = ctx.faults := by
  unfold shortCircuitStep; split <;> simp

@[simp] theorem shortCircuitStep_sinkBody (resp : Response) (ctx : Ctx) :
    (shortCircuitStep resp ctx).sinkBody = ctx.sinkBody ++ resp.body.getD "" := by
  unfold shortCircuitStep
  split
  · simp
  · next h =>
      have hempty : resp.body.getD "" = "" := by
        have h0 : (resp.body.getD "").length = 0 := by omega
        have : (resp.body.getD "").data = [] := List.length_eq_zero.mp h0
        exact String.ext this
      rw [hempty, String.append_empty]
      simp

@[simp] theorem runHandlerJSON_aborted (h : Hdl) (ctx : Ctx) :
    (runHandlerJSON h ctx).aborted = ctx.aborted := by
  cases h <;> simp [runHandlerJSON]

@[simp] theorem runHandlerJSON_faults (h : Hdl) (ctx : Ctx) :
    (runHandlerJSON h ctx).faults = ctx.faults := by
  cases h <;> simp [runHandlerJSON]

/-- A predicate singling out interceptors that short-circuit. -/
def ItcBehavior.isShortCircuit : ItcBehavior → Prop
  | .shortCircuit _ => True
  | .passThrough _ => False
  | .fault _ => False

theorem ginNext_handler_head (h : Hdl) (rest : List Link) (ctx : Ctx)
    (hab : ctx.aborted = false) :
    ginNext (Link.handlerJSON h :: rest) ctx = ginNext rest (runHandlerJSON h ctx) := by
  rw [ginNext.eq_def]
  simp [hab]

theorem ginNext_fault_head (msg : String) (rest : List Link) (ctx : Ctx)
    (hab : ctx.aborted = false) :
    ginNext (Link.interceptor (.fault msg) :: rest) ctx
      = ginNext rest (notice (installCapture ctx) ("panic recovered: " ++ msg)) := by
  rw [ginNext.eq_def]
  simp [hab]

theorem ginNext_shortCircuit_head (resp : Response) (rest : List Link) (ctx : Ctx)
    (hab : ctx.aborted = false) :
    ginNext (Link.interceptor (.shortCircuit resp) :: rest) ctx = shortCircuitStep resp ctx := by
  rw [ginNext.eq_def]
  simp [hab]

theorem ginNext_passThrough_head (post : Response → Response) (rest : List Link) (ctx : Ctx)
    (hab : ctx.aborted = false) :
    ginNext (Link.interceptor (.passThrough post) :: rest) ctx
      = reconcileHeaders (ginNext rest (installCapture ctx))
          (post (capturedResponse (ginNext rest (installCapture ctx)))).headers := by
  rw [ginNext.eq_def]
  simp [hab]

theorem ginNext_shortCircuit_run (resp : Response) :
    ∀ (pre : List ItcBehavior) (rest : List Link) (ctx : Ctx),
      (∀ b ∈ pre, ¬ b.isShortCircuit) → ctx.aborted = false →
      ginNext (pre.map Link.interceptor ++ Link.interceptor (.shortCircuit resp) :: rest) ctx
          = ginNext (pre.map Link.interceptor ++ [Link.interceptor (.shortCircuit resp)]) ctx
        ∧ (ginNext (pre.map Link.interceptor ++ Link.interceptor (.shortCircuit resp) :: rest) ctx).handlerCalls
            = ctx.handlerCalls
        ∧ (ginNext (pre.map Link.interceptor ++ Link.interceptor (.shortCircuit resp) :: rest) ctx).sinkStatus
            = resp.status
        ∧ (ginNext (pre.map Link.interceptor ++ Link.interceptor (.shortCircuit resp) :: rest) ctx).sinkBody
            = ctx.sinkBody ++ resp.body.getD "" := by
  intro pre
  induction pre with
  | nil =>
      intro rest ctx _ hab
      rw [List.map_nil, List.nil_append, List.nil_append,
        ginNext_shortCircuit_head resp rest ctx hab,
        ginNext_shortCircuit_head resp [] ctx hab]
      exact ⟨rfl, by simp, by simp, by simp⟩
  | cons b pre ih =>
      intro rest ctx hNS hab
      have hbOK := hNS b (List.mem_cons_self b pre)
      have hNS' : ∀ x ∈ pre, ¬ x.isShortCircuit := fun x hx => hNS x (List.mem_cons_of_mem b hx)
      cases b with
      | shortCircuit r => exact absurd trivial hbOK
      | fault m =>
          rw [List.map_cons, List.cons_append, List.cons_append,
            ginNext_fault_head m _ ctx hab, ginNext_fault_head m _ ctx hab]
          have hab' : (notice (installCapture ctx) ("panic recovered: " ++ m)).aborted = false := by
            simp [hab]
          have h := ih rest (notice (installCapture ctx) ("panic recovered: " ++ m)) hNS' hab'
          refine ⟨h.1, ?_, h.2.2.1, ?_⟩
          · rw [h.2.1]; simp
          · rw [h.2.2.2]; simp
      | passThrough post =>
          rw [List.map_cons, List.cons_append, List.cons_append,
            ginNext_passThrough_head post _ ctx hab, ginNext_passThrough_head post _ ctx hab]
          have hab' : (installCapture ctx).aborted = false := by simp [hab]
          have h := ih rest (installCapture ctx) hNS' hab'
          refine ⟨by rw [h.1], ?_, ?_, ?_⟩
          · rw [reconcileHeaders_handlerCalls, h.2.1]; simp
          · rw [reconcileHeaders_sinkStatus, h.2.2.1]
          · rw [reconcileHeaders_sinkBody, h.2.2.2]; simp

/-- Claim C7: an interceptor that returns without calling `Next()` makes the
run independent of everything after it in the chain (the terminal handler's
invocation count stays zero), and its returned status and body are what the
output sink ends up with. -/
theorem shortCircuit_skips_rest_of_chain
    (pre : List ItcBehavior) (resp : Response) (rest : List Link)
    (hNS : ∀ b ∈ pre, ¬ b.isShortCircuit) :
    ginNext (pre.map Link.interceptor ++ Link.interceptor (.shortCircuit resp) :: rest) initCtx
        = ginNext (pre.map Link.interceptor ++ [Link.interceptor (.shortCircuit resp)]) initCtx
      ∧ (ginNext (pre.map Link.interceptor ++ Link.interceptor (.shortCircuit resp) :: rest) initCtx).handlerCalls
          = 0
      ∧ (ginNext (pre.map Link.interceptor ++ Link.interceptor (.shortCircuit resp) :: rest) initCtx).sinkStatus
          = resp.status
      ∧ (ginNext (pre.map Link.interceptor ++ Link.interceptor (.shortCircuit resp) :: rest) initCtx).sinkBody
          = resp.body.getD "" := by
  have h := ginNext_shortCircuit_run resp pre rest initCtx hNS rfl
  refine ⟨h.1, h.2.1, h.2.2.1, ?_⟩
  rw [h.2.2.2]
  exact String.empty_append _

/-- Witness for C7: one pass-through interceptor, then a short-circuiting
one, then a terminal handler: the handler is never called and the sink holds
the short-circuited status. -/
theorem shortCircuit_skips_rest_of_chain_witness :
    (∀ b ∈ [ItcBehavior.passThrough id], ¬ b.isShortCircuit)
    ∧ (ginNext ([ItcBehavior.passThrough id].map Link.interceptor
          ++ Link.interceptor (.shortCircuit ⟨some "halt", 418, []⟩)
          :: [Link.handlerJSON (.ok (NewJSONResponse 200 (GoAny.str "hi")))]) initCtx).handlerCalls = 0
    ∧ (ginNext ([ItcBehavior.passThrough id].map Link.interceptor
          ++ Link.interceptor (.shortCircuit ⟨some "halt", 418, []⟩)
          :: [Link.handlerJSON (.ok (NewJSONResponse 200 (GoAny.str "hi")))]) initCtx).sinkStatus = 418 := by
  have hNS : ∀ b ∈ [ItcBehavior.passThrough id], ¬ b.isShortCircuit := by
    intro b hb
    rw [List.mem_singleton] at hb
    subst hb
    exact fun hFalse => hFalse
  have h := shortCircuit_skips_rest_of_chain [ItcBehavior.passThrough id]
    ⟨some "halt", 418, []⟩ [Link.handlerJSON (.ok (NewJSONResponse 200 (GoAny.str "hi")))] hNS
  exact ⟨hNS, h.2.1, h.2.2.1⟩

theorem ginNext_faults_mono :
    ∀ (links : List Link) (ctx : Ctx) (m : String), m ∈ ctx.faults → m ∈ (ginNext links ctx).faults := by
  intro links
  induction links with
  | nil => intro ctx m hm; exact hm
  | cons l rest ih =>
      intro ctx m hm
      by_cases hab : ctx.aborted = true
      · have : ginNext (l :: rest) ctx = ctx := by
          rw [ginNext.eq_def]
          simp [hab]
        rw [this]
        exact hm
      · have hab' : ctx.aborted = false := by simpa using hab
        cases l with
        | handlerJSON h =>
            rw [ginNext_handler_head h rest ctx hab']
            exact ih _ m (by simpa using hm)
        | interceptor b =>
            cases b with
            | shortCircuit r =>
                rw [ginNext_shortCircuit_head r rest ctx hab']
                simpa using hm
            | passThrough post =>
                rw [ginNext_passThrough_head post rest ctx hab', reconcileHeaders_faults]
                exact ih _ m (by simpa using hm)
            | fault msg =>
                rw [ginNext_fault_head msg rest ctx hab']
                exact ih _ m (by simp [hm])

/-- Claim C8: an interceptor that panics during its own execution is
recovered by the chain controller: the run equals the run of the remaining
chain (after the capture wrapper is installed and the fault is reported), so
the next links and the terminal handler still execute and produce the
response, and the fault is observable in the reported-fault log. -/
theorem interceptor_fault_isolated (msg : String) (rest : List Link) (ctx : Ctx)
    (hab : ctx.aborted = false) :
    ginNext (Link.interceptor (.fault msg) :: rest) ctx
        = ginNext rest (notice (installCapture ctx) ("panic recovered: " ++ msg))
      ∧ ("panic recovered: " ++ msg) ∈ (ginNext (Link.interceptor (.fault msg) :: rest) ctx).faults := by
  have h1 := ginNext_fault_head msg rest ctx hab
  refine ⟨h1, ?_⟩
  rw [h1]
  exact ginNext_faults_mono rest _ _ (by simp)

/-- Witness for C8: a chain with a faulting interceptor before a terminal
handler still behaves like the chain without it, and records the panic. -/
theorem interceptor_fault_isolated_witness :
    ginNext [Link.interceptor (.fault "boom"),
        Link.handlerJSON (.ok (NewJSONResponse 200 (GoAny.str "hi")))] initCtx
      = ginNext [Link.handlerJSON (.ok (NewJSONResponse 200 (GoAny.str "hi")))]
          (notice (installCapture initCtx) ("panic recovered: " ++ "boom"))
    ∧ ("panic recovered: " ++ "boom")
        ∈ (ginNext [Link.interceptor (.fault "boom"),
            Link.handlerJSON (.ok (NewJSONResponse 200 (GoAny.str "hi")))] initCtx).faults :=
  interceptor_fault_isolated "boom"
    [Link.handlerJSON (.ok (NewJSONResponse 200 (GoAny.str "hi")))] initCtx rfl

/-- Claim C9: a panicking handler wrapped by `NewHandlerJSON` still yields
exactly one response: status 500, JSON content type, and the documented
error object whose causes describe the fault. -/
theorem handler_fault_renders_500_json (msg : String) :
    (ginNext [Link.handlerJSON (.fault msg)] initCtx).sinkStatus = 500
    ∧ (ginNext [Link.handlerJSON (.fault msg)] initCtx).sinkBody
        = Json.render (Json.obj
            [("status", Json.num 500),
             ("error", Json.str "Internal Server Error"),
             ("message", Json.str "Internal Server Error"),
             ("causes", Json.arr [Json.str msg])])
    ∧ Header.get (ginNext [Link.handlerJSON (.fault msg)] initCtx).sinkHeaders "Content-Type"
        = "application/json" := by
  refine ⟨rfl, ?_, rfl⟩
  show "" ++ marshalRestErrorJSON 500 [msg] = _
  rw [String.empty_append, marshalRestErrorJSON_eq_render]
  rfl

/-! ## Claims about NewJSONResponse -/

/-- Claim C10 counterexample: a nil byte slice is a byte slice whose byte
content is empty, yet `NewJSONResponse` does not use those bytes verbatim —
it falls through to `json.Marshal`, which renders `null`. -/
theorem newJSONResponse_nil_byteslice_counterexample :
    (NewJSONResponse 200 (GoAny.bytes none)).body = some "null"
    ∧ (NewJSONResponse 200 (GoAny.bytes none)).body ≠ some "" := by
  exact ⟨rfl, by decide⟩

/-- Claim C10 as amended: `NewJSONResponse` always sets the JSON content
type; a nil body gives an empty body under the given status; strings and
non-nil byte slices become the body verbatim with no JSON encoding or
validation; a nil byte slice is JSON-marshaled to `null`; other values are
marshaled, and a marshal failure yields status 500 with the fixed
internal-parsing-error template instead of the requested status. -/
theorem newJSONResponse_characterization (sc : Int) :
    ((NewJSONResponse sc GoAny.nil).body = none
      ∧ (NewJSONResponse sc GoAny.nil).status = sc)
    ∧ (∀ s, (NewJSONResponse sc (GoAny.str s)).body = some s
      ∧ (NewJSONResponse sc (GoAny.str s)).status = sc)
    ∧ (∀ bs, (NewJSONResponse sc (GoAny.bytes (some bs))).body = some bs
      ∧ (NewJSONResponse sc (GoAny.bytes (some bs))).status = sc)
    ∧ ((NewJSONResponse sc (GoAny.bytes none)).body = some "null"
      ∧ (NewJSONResponse sc (GoAny.bytes none)).status = sc)
    ∧ (∀ t r j, (NewJSONResponse sc (GoAny.other (.jsonOk t r j))).body = some j
      ∧ (NewJSONResponse sc (GoAny.other (.jsonOk t r j))).status = sc)
    ∧ (∀ t r m, (NewJSONResponse sc (GoAny.other (.jsonBad t r m))).status = 500
      ∧ (NewJSONResponse sc (GoAny.other (.jsonBad t r m))).body
          = some (templateInternalParsingErrApplied t r m))
    ∧ (∀ b, (NewJSONResponse sc b).headers = [("Content-Type", ["application/json"])]) := by
  refine ⟨⟨rfl, rfl⟩, fun s => ⟨rfl, rfl⟩, fun bs => ⟨rfl, rfl⟩, ⟨rfl, rfl⟩,
    fun t r j => ⟨rfl, rfl⟩, fun t r m => ⟨rfl, rfl⟩, fun b => ?_⟩
  cases b with
  | nil => rfl
  | str s => rfl
  | bytes v => cases v <;> rfl
  | other v => cases v <;> rfl

end TodoWeb
